import Mathlib

/-!
Verification of the game-loop simulation engines of the `aiautogame`
repository (endless runner, AI elimination battle, drift time-attack).

The definitions below are shallow embeddings of the per-frame update code:

* `Elimination.*` embeds the combatant physics / collision response of the
  elimination engine's `gameLoop` (the current engine file with game-mode
  support; an older duplicate of the component exists in the repo but the
  spec's EliminationEngine is the mode-aware one).
* `Runner.*` embeds the collision branch and combo bookkeeping of the
  runner engine's `gameLoop` and the lane-change input handlers.
* `Drift.*` embeds the boost-meter frame update, the boundary wrap and the
  checkpoint/lap bookkeeping of the drift engine's `updateGame`.

JavaScript numbers are modelled as exact rationals (`ℚ`); integer counters
as `ℕ`/`ℤ`.  `Math.sqrt` does not stay inside `ℚ`, so wherever the source
takes a square root the embedding either

* receives the root as an explicit argument (`d` in
  `Elimination.collidePair`, the oracle `sq` in `Elimination.collisionPass`)
  which theorems constrain by `0 < d` and `d * d = dx² + dy²`, or
* rewrites the comparison `Math.sqrt s < r` into the equivalent rational
  test `0 < r ∧ s < r * r` (`Drift.sqrtLtQ`, justified against `Real.sqrt`
  by `Drift.sqrtLtQ_iff`).
-/

namespace Elimination

/-- A combatant of the elimination engine (`interface Combatant`).  The
display-only `character` reference is reduced to a numeric `id`. -/
structure Combatant where
  id : ℕ
  x : ℚ
  y : ℚ
  vx : ℚ
  vy : ℚ
  lives : ℤ
  eliminated : Bool
  flashTime : ℕ
  radius : ℚ
  eliminationOrder : Option ℕ
deriving DecidableEq

/-- Constant `COLLISION_FLASH_DURATION` from the engine. -/
def COLLISION_FLASH_DURATION : ℕ := 10

/-- Collision response for one pair from the engine's `gameLoop`
(the body of `if (distance < minDistance) { ... }`): flash timers, life
decrement, elimination-order assignment (with the dual-KO branch that gives
both combatants the same tag), positional separation and elastic velocity
exchange.  `d` is the value `distance = Math.sqrt(dx*dx + dy*dy)` computed
by the source; it is passed explicitly because the square root leaves `ℚ`.
`Math.cos/Math.sin` of `Math.atan2(dy, dx)` equal `dx / d` and `dy / d`
for `d > 0`, which is how they are written here.  `order` threads the
`eliminationOrderRef` counter.  (Particle spawning is display-only and
omitted.) -/
def collidePair (d : ℚ) (c1 c2 : Combatant) (order : ℕ) :
    Combatant × Combatant × ℕ :=
  let dx := c2.x - c1.x
  let dy := c2.y - c1.y
  let minDistance := c1.radius + c2.radius
  -- c1.lives--; c2.lives--;
  let l1 := c1.lives - 1
  let l2 := c2.lives - 1
  let c1JustEliminated := decide (l1 ≤ 0) && !c1.eliminated
  let c2JustEliminated := decide (l2 ≤ 0) && !c2.eliminated
  -- elimination bookkeeping: (eliminated?, order tag?) for each and the
  -- updated counter, following the two branches of the source
  let book :=
    if c1JustEliminated && c2JustEliminated then
      -- both eliminated at the same time: one counter bump, same tag
      ((true, some (order + 1)), (true, some (order + 1)), order + 1)
    else
      let b1 := if c1JustEliminated then ((true, some (order + 1)), order + 1)
                else ((c1.eliminated, c1.eliminationOrder), order)
      let k1 := b1.2
      let b2 := if c2JustEliminated then ((true, some (k1 + 1)), k1 + 1)
                else ((c2.eliminated, c2.eliminationOrder), k1)
      (b1.1, b2.1, b2.2)
  -- separation along the collision normal, half the overlap each
  let overlap := minDistance - d
  let separationX := dx / d * overlap / 2
  let separationY := dy / d * overlap / 2
  -- elastic collision: rotate into the collision frame, swap the normal
  -- components, rotate back
  let cosA := dx / d
  let sinA := dy / d
  let v1x := c1.vx * cosA + c1.vy * sinA
  let v1y := c1.vy * cosA - c1.vx * sinA
  let v2x := c2.vx * cosA + c2.vy * sinA
  let v2y := c2.vy * cosA - c2.vx * sinA
  let newV1x := v2x
  let newV2x := v1x
  ({ c1 with
      flashTime := COLLISION_FLASH_DURATION
      lives := l1
      eliminated := book.1.1
      eliminationOrder := book.1.2
      x := c1.x - separationX
      y := c1.y - separationY
      vx := newV1x * cosA - v1y * sinA
      vy := v1y * cosA + newV1x * sinA },
   { c2 with
      flashTime := COLLISION_FLASH_DURATION
      lives := l2
      eliminated := book.2.1.1
      eliminationOrder := book.2.1.2
      x := c2.x + separationX
      y := c2.y + separationY
      vx := newV2x * cosA - v2y * sinA
      vy := v2y * cosA + newV2x * sinA },
   book.2.2)

/-- Placement derived from an elimination-order tag, as computed throughout
the component: `combatants.length - (c.eliminationOrder || 0) + 1`. -/
def placementOf (total : ℕ) (c : Combatant) : ℤ :=
  (total : ℤ) - (c.eliminationOrder.getD 0 : ℤ) + 1

/-- C1: if a collision makes both (not yet eliminated) combatants reach
`lives <= 0` at once, the dual-KO branch assigns both the same
elimination-order tag, hence the same derived placement. -/
theorem dual_ko_same_tag (d : ℚ) (c1 c2 : Combatant) (order : ℕ)
    (h1 : c1.lives - 1 ≤ 0) (h1e : c1.eliminated = false)
    (h2 : c2.lives - 1 ≤ 0) (h2e : c2.eliminated = false) :
    (collidePair d c1 c2 order).1.eliminationOrder = some (order + 1) ∧
    (collidePair d c1 c2 order).2.1.eliminationOrder = some (order + 1) ∧
    (collidePair d c1 c2 order).1.eliminated = true ∧
    (collidePair d c1 c2 order).2.1.eliminated = true ∧
    ∀ total : ℕ,
      placementOf total (collidePair d c1 c2 order).1 =
      placementOf total (collidePair d c1 c2 order).2.1 := by
  simp only [collidePair, h1e, h2e, decide_eq_true_eq, Bool.not_false,
    Bool.and_true, decide_eq_true h1, decide_eq_true h2, Bool.true_and,
    if_true]
  exact ⟨trivial, trivial, trivial, trivial, fun total => rfl⟩

/-- Concrete instantiation of `dual_ko_same_tag`: two one-life combatants
colliding head on. -/
theorem dual_ko_same_tag_witness :
    (collidePair 40 ⟨0, 100, 200, 1, 0, 1, false, 0, 30, none⟩
        ⟨1, 140, 200, -1, 0, 1, false, 0, 30, none⟩ 0).1.eliminationOrder
      = some 1 := by
  exact (dual_ko_same_tag 40 ⟨0, 100, 200, 1, 0, 1, false, 0, 30, none⟩
    ⟨1, 140, 200, -1, 0, 1, false, 0, 30, none⟩ 0 (by decide) rfl (by decide)
    rfl).1

/-- C4: a pairwise collision costs exactly one life each (total life lost
is 2), and the velocity response swaps the components of the two
velocities along the collision normal `(dx, dy)` while preserving the
tangential components `(-dy, dx)` — a pure swap with equal unit masses.
`d` is the distance, constrained to be the actual Euclidean distance. -/
theorem collision_life_and_velocity_swap (d : ℚ) (c1 c2 : Combatant)
    (order : ℕ) (hd : 0 < d)
    (hsq : d * d = (c2.x - c1.x) ^ 2 + (c2.y - c1.y) ^ 2) :
    (collidePair d c1 c2 order).1.lives = c1.lives - 1 ∧
    (collidePair d c1 c2 order).2.1.lives = c2.lives - 1 ∧
    c1.lives + c2.lives -
      ((collidePair d c1 c2 order).1.lives +
       (collidePair d c1 c2 order).2.1.lives) = 2 ∧
    (collidePair d c1 c2 order).1.vx * (c2.x - c1.x) +
      (collidePair d c1 c2 order).1.vy * (c2.y - c1.y) =
      c2.vx * (c2.x - c1.x) + c2.vy * (c2.y - c1.y) ∧
    (collidePair d c1 c2 order).2.1.vx * (c2.x - c1.x) +
      (collidePair d c1 c2 order).2.1.vy * (c2.y - c1.y) =
      c1.vx * (c2.x - c1.x) + c1.vy * (c2.y - c1.y) ∧
    (collidePair d c1 c2 order).1.vx * (-(c2.y - c1.y)) +
      (collidePair d c1 c2 order).1.vy * (c2.x - c1.x) =
      c1.vx * (-(c2.y - c1.y)) + c1.vy * (c2.x - c1.x) ∧
    (collidePair d c1 c2 order).2.1.vx * (-(c2.y - c1.y)) +
      (collidePair d c1 c2 order).2.1.vy * (c2.x - c1.x) =
      c2.vx * (-(c2.y - c1.y)) + c2.vy * (c2.x - c1.x) := by
  have hd0 : d ≠ 0 := ne_of_gt hd
  have hone : (c2.x - c1.x) / d * ((c2.x - c1.x) / d) +
      (c2.y - c1.y) / d * ((c2.y - c1.y) / d) = 1 := by
    field_simp
    linear_combination -hsq
  have hv1x : (collidePair d c1 c2 order).1.vx =
      (c2.vx * ((c2.x - c1.x) / d) + c2.vy * ((c2.y - c1.y) / d)) *
          ((c2.x - c1.x) / d) -
        (c1.vy * ((c2.x - c1.x) / d) - c1.vx * ((c2.y - c1.y) / d)) *
          ((c2.y - c1.y) / d) := rfl
  have hv1y : (collidePair d c1 c2 order).1.vy =
      (c1.vy * ((c2.x - c1.x) / d) - c1.vx * ((c2.y - c1.y) / d)) *
          ((c2.x - c1.x) / d) +
        (c2.vx * ((c2.x - c1.x) / d) + c2.vy * ((c2.y - c1.y) / d)) *
          ((c2.y - c1.y) / d) := rfl
  have hv2x : (collidePair d c1 c2 order).2.1.vx =
      (c1.vx * ((c2.x - c1.x) / d) + c1.vy * ((c2.y - c1.y) / d)) *
          ((c2.x - c1.x) / d) -
        (c2.vy * ((c2.x - c1.x) / d) - c2.vx * ((c2.y - c1.y) / d)) *
          ((c2.y - c1.y) / d) := rfl
  have hv2y : (collidePair d c1 c2 order).2.1.vy =
      (c2.vy * ((c2.x - c1.x) / d) - c2.vx * ((c2.y - c1.y) / d)) *
          ((c2.x - c1.x) / d) +
        (c1.vx * ((c2.x - c1.x) / d) + c1.vy * ((c2.y - c1.y) / d)) *
          ((c2.y - c1.y) / d) := rfl
  have e1 : (collidePair d c1 c2 order).1.lives = c1.lives - 1 := rfl
  have e2 : (collidePair d c1 c2 order).2.1.lives = c2.lives - 1 := rfl
  refine ⟨e1, e2, by rw [e1, e2]; ring, ?_, ?_, ?_, ?_⟩
  · rw [hv1x, hv1y]
    linear_combination (c2.vx * (c2.x - c1.x) + c2.vy * (c2.y - c1.y)) * hone
  · rw [hv2x, hv2y]
    linear_combination (c1.vx * (c2.x - c1.x) + c1.vy * (c2.y - c1.y)) * hone
  · rw [hv1x, hv1y]
    linear_combination (c1.vy * (c2.x - c1.x) - c1.vx * (c2.y - c1.y)) * hone
  · rw [hv2x, hv2y]
    linear_combination (c2.vy * (c2.x - c1.x) - c2.vx * (c2.y - c1.y)) * hone

/-- Concrete instantiation of `collision_life_and_velocity_swap` on a
3-4-5 configuration (distance 5). -/
theorem collision_life_and_velocity_swap_witness :
    (collidePair 5 ⟨0, 0, 0, 2, 1, 4, false, 0, 30, none⟩
        ⟨1, 3, 4, -1, 0, 4, false, 0, 30, none⟩ 0).1.lives = 4 - 1 := by
  exact (collision_life_and_velocity_swap 5
    ⟨0, 0, 0, 2, 1, 4, false, 0, 30, none⟩
    ⟨1, 3, 4, -1, 0, 4, false, 0, 30, none⟩ 0 (by norm_num)
    (by norm_num)).1

/-- Constant `WINNER_CELEBRATION_FRAMES` from the engine (3 s at 60 fps). -/
def WINNER_CELEBRATION_FRAMES : ℕ := 180

/-- What the tail of `gameLoop` does once combatants have been updated:
with exactly one active combatant it runs the celebration countdown
(continuing the loop) until `WINNER_CELEBRATION_FRAMES` have elapsed; with
none active (and a nonempty roster) it immediately resolves the winners as
the combatants whose `eliminationOrder` equals the maximal tag
(`Math.max(...combatants.map(c => c.eliminationOrder || 0))`) and stops the
loop; otherwise the loop just continues. -/
inductive FrameOutcome where
  | running : FrameOutcome
  | celebrating : FrameOutcome
  | finishedWin (winnerId : ℕ) : FrameOutcome
  | finishedAllOut (winners : List Combatant) : FrameOutcome
deriving DecidableEq

/-- Maximal assigned elimination-order tag of a roster, treating a missing
tag as `0` exactly like `c.eliminationOrder || 0`. -/
def maxEliminationOrder (cs : List Combatant) : ℕ :=
  (cs.map fun c => c.eliminationOrder.getD 0).foldr max 0

/-- End-of-frame state resolution of `gameLoop` (the winner check and the
all-eliminated check).  `celebFrames` is `winnerCelebrationFramesRef`
before this frame; the source increments it and then compares it against
`WINNER_CELEBRATION_FRAMES`. -/
def resolveFrameEnd (cs : List Combatant) (celebFrames : ℕ) : FrameOutcome :=
  let active := cs.filter fun c => !c.eliminated
  match active with
  | [w] =>
      if celebFrames + 1 ≥ WINNER_CELEBRATION_FRAMES then .finishedWin w.id
      else .celebrating
  | [] =>
      if cs.length > 0 then
        .finishedAllOut
          (cs.filter fun c => c.eliminationOrder == some (maxEliminationOrder cs))
      else .running
  | _ => .running

lemma foldr_max_is_ub (l : List ℕ) : ∀ x ∈ l, x ≤ l.foldr max 0 := by
  induction l with
  | nil => intro x hx; cases hx
  | cons a t ih =>
      intro x hx
      rcases List.mem_cons.mp hx with h | h
      · subst h; exact le_max_left _ _
      · exact le_trans (ih x h) (le_max_right _ _)

lemma foldr_max_mem (l : List ℕ) :
    l.foldr max 0 = 0 ∨ l.foldr max 0 ∈ l := by
  induction l with
  | nil => exact Or.inl rfl
  | cons a t ih =>
      rcases Nat.le_total a (t.foldr max 0) with h | h
      · rw [List.foldr_cons, max_eq_right h]
        rcases ih with h0 | hm
        · exact Or.inl h0
        · exact Or.inr (List.mem_cons_of_mem _ hm)
      · rw [List.foldr_cons, max_eq_left h]
        exact Or.inr (List.mem_cons_self _ _)

/-- C5: when every combatant has been eliminated (simultaneous final KO),
the frame resolves directly to `finishedAllOut` — no celebration loop —
and the winner set is exactly the set of combatants carrying the maximal
elimination-order tag: it is nonempty (given each eliminated combatant
carries a tag) and each of its members has a tag at least as large as
every tag in the roster. -/
theorem all_eliminated_tie_resolution (cs : List Combatant)
    (celebFrames : ℕ) (hne : cs ≠ [])
    (hall : ∀ c ∈ cs, c.eliminated = true)
    (horder : ∀ c ∈ cs, ∃ k, c.eliminationOrder = some k) :
    resolveFrameEnd cs celebFrames =
      .finishedAllOut
        (cs.filter fun c => c.eliminationOrder == some (maxEliminationOrder cs)) ∧
    (cs.filter fun c => c.eliminationOrder == some (maxEliminationOrder cs)) ≠ [] ∧
    (∀ w ∈ cs.filter
        (fun c => c.eliminationOrder == some (maxEliminationOrder cs)),
      ∀ c ∈ cs, c.eliminationOrder.getD 0 ≤ w.eliminationOrder.getD 0) ∧
    resolveFrameEnd cs celebFrames ≠ .celebrating := by
  have hactive : cs.filter (fun c => !c.eliminated) = [] := by
    apply List.filter_eq_nil_iff.mpr
    intro c hc
    simp [hall c hc]
  have hlen : cs.length > 0 := List.length_pos.mpr hne
  have hres : resolveFrameEnd cs celebFrames =
      .finishedAllOut
        (cs.filter fun c => c.eliminationOrder == some (maxEliminationOrder cs)) := by
    unfold resolveFrameEnd
    rw [hactive]
    simp [hlen]
  refine ⟨hres, ?_, ?_, ?_⟩
  · -- the winner set is nonempty
    have : ∃ c ∈ cs, c.eliminationOrder = some (maxEliminationOrder cs) := by
      rcases foldr_max_mem (cs.map fun c => c.eliminationOrder.getD 0) with h0 | hm
      · -- maximum is 0: any combatant's tag is forced to be `some 0`
        rcases List.exists_mem_of_ne_nil cs hne with ⟨c, hc⟩
        rcases horder c hc with ⟨k, hk⟩
        have hub := foldr_max_is_ub (cs.map fun c => c.eliminationOrder.getD 0)
          (c.eliminationOrder.getD 0) (List.mem_map_of_mem _ hc)
        unfold maxEliminationOrder
        rw [h0] at hub ⊢
        have : c.eliminationOrder.getD 0 = 0 := Nat.le_zero.mp hub
        refine ⟨c, hc, ?_⟩
        rw [hk] at this ⊢
        simpa using this
      · rcases List.mem_map.mp hm with ⟨c, hc, hval⟩
        rcases horder c hc with ⟨k, hk⟩
        refine ⟨c, hc, ?_⟩
        unfold maxEliminationOrder
        rw [← hval, hk]
        simp [hk] at hval ⊢
    rcases this with ⟨c, hc, hmax⟩
    intro hnil
    have : c ∈ cs.filter
        (fun c => c.eliminationOrder == some (maxEliminationOrder cs)) := by
      apply List.mem_filter.mpr
      exact ⟨hc, by simp [hmax]⟩
    rw [hnil] at this
    cases this
  · intro w hw c hc
    have hwmem := List.mem_filter.mp hw
    have hwtag : w.eliminationOrder = some (maxEliminationOrder cs) := by
      simpa using hwmem.2
    have hub := foldr_max_is_ub (cs.map fun c => c.eliminationOrder.getD 0)
      (c.eliminationOrder.getD 0) (List.mem_map_of_mem _ hc)
    rw [hwtag]
    exact hub
  · rw [hres]
    intro h
    cases h

/-- Concrete instantiation of `all_eliminated_tie_resolution`: a roster of
two combatants both eliminated with the same (maximal) tag. -/
theorem all_eliminated_tie_resolution_witness :
    resolveFrameEnd [⟨0, 100, 200, 1, 0, 0, true, 0, 30, some 1⟩,
        ⟨1, 140, 200, -1, 0, 0, true, 0, 30, some 1⟩] 0 ≠ .celebrating := by
  exact (all_eliminated_tie_resolution
    [⟨0, 100, 200, 1, 0, 0, true, 0, 30, some 1⟩,
     ⟨1, 140, 200, -1, 0, 0, true, 0, 30, some 1⟩] 0 (by decide)
    (by intro c hc; fin_cases hc <;> rfl)
    (by intro c hc; fin_cases hc <;> exact ⟨1, rfl⟩)).2.2.2

/-- Per-combatant physics of `gameLoop` (position integration with the
speed multiplier `m`, wall clamp-and-reflect on the `arenaWidth × arenaHeight`
bounds, flash-timer decrement).  The source runs this only over
`activeCombatants = combatants.filter(c => !c.eliminated)`. -/
def physicsStep (w h m : ℚ) (c : Combatant) : Combatant :=
  let x0 := c.x + c.vx * m
  let y0 := c.y + c.vy * m
  let px := if x0 - c.radius < 0 then (c.radius, |c.vx|)
            else if x0 + c.radius > w then (w - c.radius, -|c.vx|)
            else (x0, c.vx)
  let py := if y0 - c.radius < 0 then (c.radius, |c.vy|)
            else if y0 + c.radius > h then (h - c.radius, -|c.vy|)
            else (y0, c.vy)
  { c with
      x := px.1, vx := px.2, y := py.1, vy := py.2
      flashTime := if c.flashTime > 0 then c.flashTime - 1 else c.flashTime }

/-- Index pairs `(i, j)` with `i < j < n` in the visit order of the nested
`for` loops of the collision pass. -/
def pairList (n : ℕ) : List (ℕ × ℕ) :=
  (List.range n).flatMap fun i =>
    ((List.range n).filter fun j => i < j).map fun j => (i, j)

/-- One iteration of the inner collision loop on the active-combatant
array: read the pair, compute the distance (the square root is supplied by
the oracle `sq`, standing for `Math.sqrt`), and if they overlap apply
`collidePair` and write both back. -/
def pairStep (sq : ℚ → ℚ) (st : List Combatant × ℕ) (ij : ℕ × ℕ) :
    List Combatant × ℕ :=
  match st.1[ij.1]?, st.1[ij.2]? with
  | some c1, some c2 =>
      let dx := c2.x - c1.x
      let dy := c2.y - c1.y
      let distance := sq (dx * dx + dy * dy)
      let minDistance := c1.radius + c2.radius
      if distance < minDistance then
        let r := collidePair distance c1 c2 st.2
        ((st.1.set ij.1 r.1).set ij.2 r.2.1, r.2.2)
      else st
  | _, _ => st

/-- The full pairwise collision pass of `gameLoop` over the
active-combatant array, threading the `eliminationOrderRef` counter.
Note that the array is the one filtered at the START of the frame: the
inner loop never re-checks `eliminated`. -/
def collisionPass (sq : ℚ → ℚ) (cs : List Combatant) (order : ℕ) :
    List Combatant × ℕ :=
  (pairList cs.length).foldl (pairStep sq) (cs, order)

/-- In the source, `activeCombatants` holds references into `combatants`,
so mutating the filtered array mutates the full roster.  `mergeActive`
reproduces that: it replaces the non-eliminated entries of `cs`, in order,
by the entries of `repl`, leaving eliminated entries untouched. -/
def mergeActive : List Combatant → List Combatant → List Combatant
  | [], _ => []
  | c :: rest, repl =>
      if c.eliminated then c :: mergeActive rest repl
      else
        match repl with
        | [] => c :: mergeActive rest []
        | r :: rs => r :: mergeActive rest rs

/-- One whole simulation frame of `gameLoop` (physics + collision pass) on
the full roster: filter the active combatants, integrate their physics,
run the pairwise collision pass, and write the results back over the
non-eliminated slots. -/
def frameStep (sq : ℚ → ℚ) (w h m : ℚ) (cs : List Combatant) (order : ℕ) :
    List Combatant × ℕ :=
  let active := (cs.filter fun c => !c.eliminated).map (physicsStep w h m)
  let r := collisionPass sq active order
  (mergeActive cs r.1, r.2)

lemma mergeActive_getElem_eliminated :
    ∀ (cs repl : List Combatant) (i : ℕ) (c : Combatant),
      cs[i]? = some c → c.eliminated = true →
      (mergeActive cs repl)[i]? = some c := by
  intro cs
  induction cs with
  | nil => intro repl i c h _; simp at h
  | cons hd tl ih =>
      intro repl i c h hc
      cases i with
      | zero =>
          simp at h
          subst h
          unfold mergeActive
          rw [if_pos hc]
          simp
      | succ n =>
          simp only [List.getElem?_cons_succ] at h
          unfold mergeActive
          by_cases he : hd.eliminated
          · rw [if_pos he]
            simpa using ih repl n c h hc
          · rw [if_neg he]
            cases repl with
            | nil => simpa using ih [] n c h hc
            | cons r rs => simpa using ih rs n c h hc

/-- C9 (amended, provable part): a combatant that is already marked
eliminated when a frame starts is untouched by that frame — it is excluded
from physics integration and from the collision pass, so its entire record
(position, velocity, lives, tag) is unchanged in every later frame. -/
theorem eliminated_untouched_by_frame (sq : ℚ → ℚ) (w h m : ℚ)
    (cs : List Combatant) (order : ℕ) (i : ℕ) (c : Combatant)
    (hi : cs[i]? = some c) (hc : c.eliminated = true) :
    (frameStep sq w h m cs order).1[i]? = some c := by
  unfold frameStep
  exact mergeActive_getElem_eliminated cs _ i c hi hc

/-- Concrete instantiation of `eliminated_untouched_by_frame`. -/
theorem eliminated_untouched_by_frame_witness :
    (frameStep (fun _ => 0) 750 450 1
        [⟨0, 100, 200, 1, 0, 0, true, 0, 30, some 1⟩] 1).1[0]? =
      some ⟨0, 100, 200, 1, 0, 0, true, 0, 30, some 1⟩ := by
  exact eliminated_untouched_by_frame (fun _ => 0) 750 450 1
    [⟨0, 100, 200, 1, 0, 0, true, 0, 30, some 1⟩] 1 0
    ⟨0, 100, 200, 1, 0, 0, true, 0, 30, some 1⟩ rfl rfl

/-- Square-root oracle for the concrete counterexample run below: the only
distances the pass computes there are `√1600 = 40` and `√10000 = 100`. -/
def sqKO : ℚ → ℚ := fun q => if q = 1600 then 40 else if q = 10000 then 100 else 0

/-- C9 counterexample: within a single frame's collision pass the claim
fails.  Three collinear combatants (radius 30): the pair `(0, 1)` collides
and eliminates combatant 1 (it had 1 life, so elimination leaves it at
exactly 0 lives); the later pair `(1, 2)` of the same pass still collides
with the already-eliminated combatant 1 and applies the full collision
response to it again, leaving it at `lives = -1` — so an eliminated
combatant does participate in further collision responses within the frame
of its elimination. -/
theorem eliminated_hit_again_same_frame_counterexample :
    ((collisionPass sqKO
        [⟨0, 100, 200, 1, 0, 5, false, 0, 30, none⟩,
         ⟨1, 140, 200, -1, 0, 1, false, 0, 30, none⟩,
         ⟨2, 190, 200, 0, 0, 5, false, 0, 30, none⟩] 0).1[1]?.map
      fun c => (c.lives, c.eliminated, c.eliminationOrder)) =
      some (-1, true, some 1) := by
  norm_num [collisionPass, pairList, pairStep, collidePair, sqKO,
    COLLISION_FLASH_DURATION, List.range_succ]

end Elimination

namespace Runner

/-- Entity variants of the runner engine (`EntityType`). -/
inductive EntityType where
  | obstacle | coin | powerupShield | powerupSlow | powerupBlast
deriving DecidableEq

/-- A scrolling entity of the runner engine (`interface Entity`), reduced
to the geometric and gameplay fields (colors / names are display only). -/
structure Entity where
  type : EntityType
  lane : ℕ
  x : ℚ
  y : ℚ
  width : ℚ
  height : ℚ
deriving DecidableEq

/-- The runner state fields touched by the collision branch of `gameLoop`.
`playerSize` (`PLAYER_SIZE`) is defined in the repo's constants module and
is kept as a parameter. -/
structure RunnerState where
  playerX : ℚ
  playerY : ℚ
  playerOffsetX : ℚ
  jumpOffsetY : ℚ
  shieldActive : Bool
  comboCount : ℕ
  comboMultiplier : ℕ
  comboTimer : ℕ
  score : ℤ
deriving DecidableEq

/-- An axis-aligned box `{x, y, w, h}` as used by the collision check. -/
structure Box where
  x : ℚ
  y : ℚ
  w : ℚ
  h : ℚ

/-- The shrunk player hitbox `pRect` of `gameLoop`. -/
def playerBox (playerSize : ℚ) (s : RunnerState) : Box :=
  { x := s.playerX + s.playerOffsetX - playerSize / 2 + 8
    y := s.playerY + s.jumpOffsetY - 12
    w := playerSize - 16
    h := 24 }

/-- The full-size entity box `entRect` of `gameLoop`. -/
def entityBox (e : Entity) : Box :=
  { x := e.x - e.width / 2, y := e.y - e.height / 2, w := e.width, h := e.height }

/-- The AABB overlap test of `gameLoop`. -/
def boxesOverlap (p q : Box) : Bool :=
  decide (p.x < q.x + q.w) && decide (p.x + p.w > q.x) &&
  decide (p.y < q.y + q.h) && decide (p.y + p.h > q.y)

/-- Constant `jumpClearanceHeight` from `gameLoop`. -/
def jumpClearanceHeight : ℚ := 50

/-- Test `isJumpingOverObstacles = jumpOffsetYRef.current < -jumpClearanceHeight`. -/
def isJumpingOverObstacles (s : RunnerState) : Bool :=
  decide (s.jumpOffsetY < -jumpClearanceHeight)

/-- The combo-multiplier update applied after a coin pickup increments the
combo count (`gameLoop`, coin branch). -/
def comboMultiplierOf (count : ℕ) : ℕ :=
  if count ≥ 20 then 5
  else if count ≥ 10 then 3
  else if count ≥ 5 then 2
  else 1

/-- The state effect of the coin branch of the collision loop: combo count
up, combo timer re-armed to 180 frames, multiplier recomputed from the new
count, and `coinValue = 50 * multiplier` added to the score.  (The coin
entity is spliced out of the entity list; explosion/floating-text effects
are display only.) -/
def coinPickup (s : RunnerState) : RunnerState :=
  { s with
      comboCount := s.comboCount + 1
      comboTimer := 180
      comboMultiplier := comboMultiplierOf (s.comboCount + 1)
      score := s.score + 50 * (comboMultiplierOf (s.comboCount + 1) : ℤ) }

/-- Result of processing one entity in the collision loop. -/
inductive CollisionResult where
  /-- No overlap, or an obstacle cleared by the jump-over rule: the entity
  stays in the list and no state changes. -/
  | noEffect
  /-- Obstacle absorbed by an active shield: the obstacle is spliced out of
  the entity list and the run continues with the given state. -/
  | shieldBroken (s' : RunnerState)
  /-- Unshielded obstacle contact: terminal game-over transition reporting
  the final score and the elapsed session time. -/
  | gameOver (finalScore : ℤ) (sessionTime : ℚ)
  /-- Coin consumed: combo/score bookkeeping applied, coin spliced out. -/
  | coinCollected (s' : RunnerState)
  /-- Power-up consumed (shield / slow / blast); their effects are not
  needed by any claim and are not modelled further. -/
  | powerupConsumed
deriving DecidableEq

/-- Processing of a single entity by the collision loop of `gameLoop`
(`for (let i = entitiesRef.current.length - 1; ...)` body).  `sessionTime`
is the wall-clock `(Date.now() - startTimeRef.current) / 1000`. -/
def processEntity (playerSize sessionTime : ℚ) (s : RunnerState)
    (e : Entity) : CollisionResult :=
  if boxesOverlap (playerBox playerSize s) (entityBox e) then
    if e.type = .obstacle ∧ isJumpingOverObstacles s then .noEffect
    else
      match e.type with
      | .obstacle =>
          if s.shieldActive then
            .shieldBroken { s with
              shieldActive := false
              comboCount := 0
              comboMultiplier := 1
              comboTimer := 0 }
          else .gameOver s.score sessionTime
      | .coin => .coinCollected (coinPickup s)
      | _ => .powerupConsumed
  else .noEffect

/-- C2: for a frame collision between the player hitbox and an obstacle
entity — (1) with the jump offset beyond the clearance threshold the
collision has no effect; (2) otherwise with an active shield the shield is
deactivated, the obstacle removed, the combo reset, the score unchanged
and no game-over transition fires; (3) otherwise the run ends with a
game-over transition reporting the final score and session time. -/
theorem obstacle_collision_trichotomy (playerSize sessionTime : ℚ)
    (s : RunnerState) (e : Entity) (htype : e.type = .obstacle)
    (hhit : boxesOverlap (playerBox playerSize s) (entityBox e) = true) :
    (s.jumpOffsetY < -jumpClearanceHeight →
      processEntity playerSize sessionTime s e = .noEffect) ∧
    (¬(s.jumpOffsetY < -jumpClearanceHeight) → s.shieldActive = true →
      processEntity playerSize sessionTime s e =
        .shieldBroken { s with
          shieldActive := false
          comboCount := 0
          comboMultiplier := 1
          comboTimer := 0 } ∧
      ∀ sc t, processEntity playerSize sessionTime s e ≠ .gameOver sc t) ∧
    (¬(s.jumpOffsetY < -jumpClearanceHeight) → s.shieldActive = false →
      processEntity playerSize sessionTime s e =
        .gameOver s.score sessionTime) := by
  refine ⟨?_, ?_, ?_⟩
  · intro hjump
    unfold processEntity
    rw [hhit]
    simp [htype, isJumpingOverObstacles, hjump]
  · intro hjump hshield
    have hres : processEntity playerSize sessionTime s e =
        .shieldBroken { s with
          shieldActive := false
          comboCount := 0
          comboMultiplier := 1
          comboTimer := 0 } := by
      unfold processEntity
      rw [hhit]
      simp [htype, isJumpingOverObstacles, hjump, hshield]
    exact ⟨hres, fun sc t h => by rw [hres] at h; cases h⟩
  · intro hjump hshield
    unfold processEntity
    rw [hhit]
    simp [htype, isJumpingOverObstacles, hjump, hshield]

/-- Concrete instantiation of `obstacle_collision_trichotomy`: a shielded
player overlapping an obstacle keeps running (no game-over fires). -/
theorem obstacle_collision_trichotomy_witness :
    processEntity 60 7 ⟨100, 100, 0, 0, true, 3, 1, 90, 500⟩
      ⟨.obstacle, 1, 100, 100, 50, 50⟩ ≠ .gameOver 500 7 := by
  exact ((obstacle_collision_trichotomy 60 7
    ⟨100, 100, 0, 0, true, 3, 1, 90, 500⟩ ⟨.obstacle, 1, 100, 100, 50, 50⟩
    rfl (by norm_num [boxesOverlap, playerBox, entityBox])).2.1
    (by norm_num [jumpClearanceHeight]) rfl).2 500 7

/-- The spec's step function, stated from the spec's words: multiplier 1
below 5 coins, 2 at 5–9, 3 at 10–19, 5 at 20 or more. -/
def specStepMultiplier (count : ℕ) : ℕ :=
  if count < 5 then 1
  else if count ≤ 9 then 2
  else if count ≤ 19 then 3
  else 5

/-- C3: the code's combo multiplier is exactly the spec's step function of
the combo count, it is monotone, successive coin pickups increment the
count by one each, the multiplier after each pickup is the step function
of the current count, and along a run of successive pickups (no timer
expiry in between) the multiplier never decreases. -/
theorem combo_multiplier_step_function :
    (∀ n, comboMultiplierOf n = specStepMultiplier n) ∧
    (∀ a b : ℕ, a ≤ b → comboMultiplierOf a ≤ comboMultiplierOf b) ∧
    (∀ (s : RunnerState) (k : ℕ),
      (coinPickup^[k] s).comboCount = s.comboCount + k) ∧
    (∀ (s : RunnerState) (k : ℕ),
      (coinPickup^[k + 1] s).comboMultiplier =
        comboMultiplierOf (s.comboCount + (k + 1))) ∧
    (∀ (s : RunnerState) (k : ℕ),
      (coinPickup^[k + 1] s).comboMultiplier ≤
        (coinPickup^[k + 2] s).comboMultiplier) := by
  have hstep : ∀ n, comboMultiplierOf n = specStepMultiplier n := by
    intro n
    unfold comboMultiplierOf specStepMultiplier
    split_ifs <;> omega
  have hmono : ∀ a b : ℕ, a ≤ b → comboMultiplierOf a ≤ comboMultiplierOf b := by
    intro a b hab
    unfold comboMultiplierOf
    split_ifs <;> omega
  have hcount : ∀ (s : RunnerState) (k : ℕ),
      (coinPickup^[k] s).comboCount = s.comboCount + k := by
    intro s k
    induction k generalizing s with
    | zero => simp
    | succ n ih =>
        rw [Function.iterate_succ_apply]
        rw [ih (coinPickup s)]
        simp [coinPickup]
        omega
  have hmult : ∀ (s : RunnerState) (k : ℕ),
      (coinPickup^[k + 1] s).comboMultiplier =
        comboMultiplierOf (s.comboCount + (k + 1)) := by
    intro s k
    rw [Function.iterate_succ_apply']
    simp only [coinPickup]
    rw [hcount s k, Nat.add_assoc]
  refine ⟨hstep, hmono, hcount, hmult, ?_⟩
  intro s k
  rw [hmult s k, hmult s (k + 1)]
  exact hmono _ _ (by omega)

/-- Concrete instantiation of `combo_multiplier_step_function`: the fifth
pickup of a fresh combo raises the multiplier to 2 ≥ the fourth's 1. -/
theorem combo_multiplier_step_function_witness :
    (coinPickup^[4] ⟨100, 100, 0, 0, false, 0, 1, 0, 0⟩).comboMultiplier ≤
      (coinPickup^[5] ⟨100, 100, 0, 0, false, 0, 1, 0, 0⟩).comboMultiplier := by
  exact combo_multiplier_step_function.2.2.2.2 ⟨100, 100, 0, 0, false, 0, 1, 0, 0⟩ 3

/-- A discrete lane-change input.  Keyboard up/down (`handleKeyDown`) and
the touch handler's upper/lower half taps (`handleTouch`) perform exactly
the same clamped update on `playerLaneRef`. -/
inductive LaneInput where
  | laneUp | laneDown
deriving DecidableEq

/-- The clamped lane update of `handleKeyDown` / `handleTouch`:
`Math.max(0, lane - 1)` on up, `Math.min(LANE_COUNT - 1, lane + 1)` on
down.  `laneCount` (`LANE_COUNT`, from the repo's constants module) is a
parameter. -/
def laneStep (laneCount : ℕ) (lane : ℤ) : LaneInput → ℤ
  | .laneUp => max 0 (lane - 1)
  | .laneDown => min ((laneCount : ℤ) - 1) (lane + 1)

/-- C10: starting from any lane inside `[0, LANE_COUNT - 1]`, no sequence
of lane-up/lane-down inputs (keyboard or touch) can move the player lane
index outside `[0, LANE_COUNT - 1]`: an up in the top lane and a down in
the bottom lane are clamped. -/
theorem lane_index_stays_in_range (laneCount : ℕ) (hL : 1 ≤ laneCount)
    (lane0 : ℤ) (h0 : 0 ≤ lane0) (h1 : lane0 ≤ (laneCount : ℤ) - 1)
    (inputs : List LaneInput) :
    0 ≤ inputs.foldl (laneStep laneCount) lane0 ∧
    inputs.foldl (laneStep laneCount) lane0 ≤ (laneCount : ℤ) - 1 := by
  induction inputs generalizing lane0 with
  | nil => exact ⟨h0, h1⟩
  | cons i rest ih =>
      rw [List.foldl_cons]
      apply ih
      · cases i <;> simp [laneStep] <;> omega
      · cases i <;> simp [laneStep] <;> omega

/-- Concrete instantiation of `lane_index_stays_in_range`: spamming up in
the top lane, then down past the bottom, stays inside the 4-lane range. -/
theorem lane_index_stays_in_range_witness :
    0 ≤ ([LaneInput.laneUp, .laneUp, .laneDown, .laneDown, .laneDown,
          .laneDown].foldl (laneStep 4) 0) ∧
    ([LaneInput.laneUp, .laneUp, .laneDown, .laneDown, .laneDown,
          .laneDown].foldl (laneStep 4) 0) ≤ (4 : ℤ) - 1 := by
  exact lane_index_stays_in_range 4 (by norm_num) 0 le_rfl (by norm_num) _

end Runner

namespace Drift

/-- Comparison `Math.sqrt s < r` as a rational test: for `s ≥ 0` it is equivalent to
`0 < r ∧ s < r * r` (see `sqrtLtQ_iff`).  Used for the checkpoint radius
comparisons, where the source compares a Euclidean distance against a
radius. -/
def sqrtLtQ (s r : ℚ) : Bool := decide (0 < r) && decide (s < r * r)

/-- Justification of `sqrtLtQ` against the real square root. -/
lemma sqrtLtQ_iff (s r : ℚ) (hs : 0 ≤ s) :
    sqrtLtQ s r = true ↔ Real.sqrt (s : ℝ) < (r : ℝ) := by
  unfold sqrtLtQ
  simp only [Bool.and_eq_true, decide_eq_true_eq]
  constructor
  · rintro ⟨hr, hlt⟩
    have hr' : (0 : ℝ) < (r : ℝ) := by exact_mod_cast hr
    refine (Real.sqrt_lt' hr').mpr ?_
    have : ((s : ℝ)) < (r : ℝ) * (r : ℝ) := by exact_mod_cast hlt
    nlinarith
  · intro h
    have hr' : (0 : ℝ) < (r : ℝ) :=
      lt_of_le_of_lt (Real.sqrt_nonneg _) h
    have hlt := (Real.sqrt_lt' hr').mp h
    constructor
    · exact_mod_cast hr'
    · have : ((s : ℝ)) < (r : ℝ) * (r : ℝ) := by nlinarith
      exact_mod_cast this

/-- The per-axis boundary handling of `updateGame`
(`if (p < 0) p = bound; if (p > bound) p = 0;`): leaving the arena on one
edge teleports the vehicle to the opposite edge coordinate. -/
def wrapCoord (bound p : ℚ) : ℚ :=
  let p1 := if p < 0 then bound else p
  if p1 > bound then 0 else p1

/-- C6 counterexample: the claim says a position exactly at `width + ε` is
re-mapped to `ε`; the code maps it to `0` (with `width = 800`, `ε = 1`,
the result is `0`, not `1`). -/
theorem wrap_discards_overshoot_counterexample :
    wrapCoord 800 (800 + 1) = 0 ∧ (0 : ℚ) ≠ 1 := by
  norm_num [wrapCoord]

/-- C6 (amended): out-of-bounds on any edge teleports the vehicle to the
opposite edge coordinate itself — `p < 0` maps to `bound` and `p > bound`
maps to `0`, discarding the overshoot — and an in-range coordinate is left
unchanged (toroidal teleport, never a clamp to the crossed edge or a
bounce). -/
theorem wrap_to_opposite_edge (bound p : ℚ) (hb : 0 ≤ bound) :
    (p < 0 → wrapCoord bound p = bound) ∧
    (p > bound → wrapCoord bound p = 0) ∧
    (0 ≤ p → p ≤ bound → wrapCoord bound p = p) := by
  refine ⟨fun h => ?_, fun h => ?_, fun h0 h1 => ?_⟩ <;>
    simp only [wrapCoord] <;> split_ifs <;> first | rfl | linarith

/-- Concrete instantiation of `wrap_to_opposite_edge`. -/
theorem wrap_to_opposite_edge_witness :
    wrapCoord 800 (800 + 1) = 0 ∧ wrapCoord 800 (-1) = 800 := by
  exact ⟨(wrap_to_opposite_edge 800 (800 + 1) (by norm_num)).2.1 (by norm_num),
    (wrap_to_opposite_edge 800 (-1) (by norm_num)).1 (by norm_num)⟩

/-- Constant `DRIFT_METER_RATE` from the drift engine. -/
def DRIFT_METER_RATE : ℚ := 2

/-- Constant `BOOST_DRAIN_RATE` from the drift engine. -/
def BOOST_DRAIN_RATE : ℚ := 3

/-- The boost-relevant per-frame inputs of `updateGame`.  `driftHeld` is
the space key, `speedOver3` is `player.speed > 3` this frame, `boosting`
is the `isBoosting` React state (armed on drift release and cleared by a
1.5 s timeout, so it is an external input to the meter update), and
`hazardHits` is the number of hazards whose rectangle contains the vehicle
this frame (each applies one meter penalty in
`checkHazardCollisions`). -/
structure BoostInput where
  driftHeld : Bool
  speedOver3 : Bool
  boosting : Bool
  hazardHits : ℕ
deriving DecidableEq

/-- The boost-relevant persistent state of the player ref. -/
structure BoostState where
  boostMeter : ℚ
  isDrifting : Bool
deriving DecidableEq

/-- Drift-hold block of `updateGame`: while drifting (space held and speed
above 3) the meter charges by `DRIFT_METER_RATE` up to 100; otherwise the
drifting flag clears (boost arming on release only toggles the external
`isBoosting` state and does not touch the meter). -/
def driftChargePhase (inp : BoostInput) (st : BoostState) : BoostState :=
  if inp.driftHeld && inp.speedOver3 then
    { isDrifting := true
      boostMeter :=
        if st.boostMeter < 100 then min 100 (st.boostMeter + DRIFT_METER_RATE)
        else st.boostMeter }
  else { st with isDrifting := false }

/-- Boost-drain block of `updateGame`: while boosting the meter drains by
`BOOST_DRAIN_RATE` down to 0; otherwise, when not drifting, it decays by
0.5 down to 0. -/
def boostDrainPhase (boosting : Bool) (st : BoostState) : BoostState :=
  if boosting && decide (st.boostMeter > 0) then
    { st with boostMeter := max 0 (st.boostMeter - BOOST_DRAIN_RATE) }
  else if !st.isDrifting && decide (st.boostMeter > 0) then
    { st with boostMeter := max 0 (st.boostMeter - 1/2) }
  else st

/-- The meter penalty of one hazard contact (`checkHazardCollisions`):
`player.boostMeter = Math.max(0, player.boostMeter - 20)`. -/
def hazardPenalty (st : BoostState) : BoostState :=
  { st with boostMeter := max 0 (st.boostMeter - 20) }

/-- The boost-meter evolution of one `updateGame` frame: drift charge,
then boost drain / idle decay, then one penalty per colliding hazard. -/
def boostFrame (inp : BoostInput) (st : BoostState) : BoostState :=
  hazardPenalty^[inp.hazardHits]
    (boostDrainPhase inp.boosting (driftChargePhase inp st))

lemma boostMeter_mem_Icc_charge (inp : BoostInput) (st : BoostState)
    (h0 : 0 ≤ st.boostMeter) (h1 : st.boostMeter ≤ 100) :
    0 ≤ (driftChargePhase inp st).boostMeter ∧
    (driftChargePhase inp st).boostMeter ≤ 100 := by
  unfold driftChargePhase
  split_ifs <;> (try dsimp only) <;> refine ⟨?_, ?_⟩ <;>
    first
      | assumption
      | exact le_min (by norm_num) (by unfold DRIFT_METER_RATE; linarith)
      | exact min_le_left _ _

lemma boostMeter_mem_Icc_drain (b : Bool) (st : BoostState)
    (h0 : 0 ≤ st.boostMeter) (h1 : st.boostMeter ≤ 100) :
    0 ≤ (boostDrainPhase b st).boostMeter ∧
    (boostDrainPhase b st).boostMeter ≤ 100 := by
  unfold boostDrainPhase
  split_ifs <;> (try dsimp only) <;> refine ⟨?_, ?_⟩ <;>
    first
      | assumption
      | exact le_max_left _ _
      | exact max_le (by norm_num) (by unfold BOOST_DRAIN_RATE; linarith)
      | exact max_le (by norm_num) (by linarith)

lemma boostMeter_mem_Icc_hazard (k : ℕ) (st : BoostState)
    (h0 : 0 ≤ st.boostMeter) (h1 : st.boostMeter ≤ 100) :
    0 ≤ (hazardPenalty^[k] st).boostMeter ∧
    (hazardPenalty^[k] st).boostMeter ≤ 100 := by
  induction k generalizing st with
  | zero => exact ⟨h0, h1⟩
  | succ n ih =>
      rw [Function.iterate_succ_apply]
      have hp : (hazardPenalty st).boostMeter = max 0 (st.boostMeter - 20) := rfl
      refine ih (hazardPenalty st) ?_ ?_
      · rw [hp]; exact le_max_left _ _
      · rw [hp]; exact max_le (by norm_num) (by linarith)

lemma boostMeter_mem_Icc_frame (inp : BoostInput) (st : BoostState)
    (h0 : 0 ≤ st.boostMeter) (h1 : st.boostMeter ≤ 100) :
    0 ≤ (boostFrame inp st).boostMeter ∧
    (boostFrame inp st).boostMeter ≤ 100 := by
  unfold boostFrame
  have hc := boostMeter_mem_Icc_charge inp st h0 h1
  have hd := boostMeter_mem_Icc_drain inp.boosting _ hc.1 hc.2
  exact boostMeter_mem_Icc_hazard _ _ hd.1 hd.2

lemma scanl_all_of_preserved {σ α : Type} (f : σ → α → σ) (P : σ → Prop)
    (hstep : ∀ s a, P s → P (f s a)) :
    ∀ (l : List α) (s : σ), P s → ∀ t ∈ List.scanl f s l, P t := by
  intro l
  induction l with
  | nil =>
      intro s hs t ht
      simp only [List.scanl_nil, List.mem_singleton] at ht
      subst ht
      exact hs
  | cons a rest ih =>
      intro s hs t ht
      simp only [List.scanl_cons, List.singleton_append, List.mem_cons] at ht
      rcases ht with h | hmem
      · subst h
        exact hs
      · exact ih (f s a) (hstep s a hs) t hmem

/-- C8: starting from the initial player state (meter 0, not drifting),
for every sequence of frame inputs (arbitrary drift-hold, boost, idle and
hazard-contact patterns) the boost-meter value lies in `[0, 100]` at every
frame of the run. -/
theorem boost_meter_always_in_range (inputs : List BoostInput) :
    ∀ st ∈ List.scanl (fun st inp => boostFrame inp st)
        (⟨0, false⟩ : BoostState) inputs,
      0 ≤ st.boostMeter ∧ st.boostMeter ≤ 100 := by
  refine scanl_all_of_preserved _
    (fun st => 0 ≤ st.boostMeter ∧ st.boostMeter ≤ 100) ?_ inputs
    (⟨0, false⟩ : BoostState) (by norm_num)
  intro s a hs
  exact boostMeter_mem_Icc_frame a s hs.1 hs.2

/-- Concrete instantiation of `boost_meter_always_in_range` on a two-frame
run (charge while drifting, then a hazard hit while boosting). -/
theorem boost_meter_always_in_range_witness :
    0 ≤ (⟨0, false⟩ : BoostState).boostMeter ∧
    (⟨0, false⟩ : BoostState).boostMeter ≤ 100 := by
  exact boost_meter_always_in_range
    [⟨true, true, false, 0⟩, ⟨false, false, true, 1⟩]
    (⟨0, false⟩ : BoostState) (by simp [List.scanl_cons])

/-- A checkpoint of a track definition (`Checkpoint` in the track data):
position, full capture diameter `width` and perfect diameter
`perfectWindow` (both compared against the distance as `… / 2`). -/
structure Checkpoint where
  x : ℚ
  y : ℚ
  width : ℚ
  perfectWindow : ℚ
deriving DecidableEq

/-- The track fields used by the checkpoint/lap logic. -/
structure DriftTrack where
  width : ℚ
  height : ℚ
  laps : ℕ
  checkpoints : List Checkpoint
deriving DecidableEq

/-- A recorded lap (`interface LapTime`): lap number, elapsed seconds
since race start, and whether all checkpoints were hit perfectly. -/
structure LapRecord where
  lap : ℕ
  time : ℚ
  isPerfect : Bool
deriving DecidableEq

/-- The lap-bookkeeping React state.  Within one synchronous frame the
handlers read the values committed before the frame (the render snapshot);
`set*` calls only replace the value the next frame will see.  `LapState`
is used both for the snapshot and for that pending next-frame value. -/
structure LapState where
  checkpointsPassed : Finset ℕ
  perfectCheckpoints : Finset ℕ
  currentLap : ℕ
  lapTimes : List LapRecord
  raceFinished : Bool
deriving DecidableEq

/-- One iteration of the `forEach` of `checkCheckpointCollisions`,
including the inlined `completeLap()` call.  React semantics make the
reads subtle and are mirrored exactly: every test and every
`new Set(...)` copy reads the frame-start snapshot `snap` (the closure
state variables), while each `setX(...)` replaces the corresponding field
of the pending state `pend` (functional updates like
`setLapTimes(prev => [...prev, r])` act on the pending value).  In
particular `completeLap` computes `isPerfect` from the SNAPSHOT
`perfectCheckpoints`, which cannot yet contain the checkpoint whose
capture completed the lap. -/
def cpStep (track : DriftTrack) (px py elapsed : ℚ) (snap : LapState)
    (pend : LapState) (icp : ℕ × Checkpoint) : LapState :=
  let i := icp.1
  let cp := icp.2
  let dx := px - cp.x
  let dy := py - cp.y
  let dist2 := dx * dx + dy * dy
  if sqrtLtQ dist2 (cp.width / 2) then
    if i ∈ snap.checkpointsPassed then pend
    else
      let newCheckpoints := insert i snap.checkpointsPassed
      let pend1 := { pend with checkpointsPassed := newCheckpoints }
      let pend2 :=
        if sqrtLtQ dist2 (cp.perfectWindow / 2) then
          { pend1 with perfectCheckpoints := insert i snap.perfectCheckpoints }
        else pend1
      if newCheckpoints.card = track.checkpoints.length then
        -- completeLap(): lap record from the snapshot, then reset the sets
        let isPerfect : Bool :=
          decide (snap.perfectCheckpoints.card = track.checkpoints.length)
        let pend3 := { pend2 with
          lapTimes := pend2.lapTimes ++
            [({ lap := snap.currentLap, time := elapsed,
                isPerfect := isPerfect } : LapRecord)]
          checkpointsPassed := ∅
          perfectCheckpoints := ∅ }
        if snap.currentLap ≥ track.laps then { pend3 with raceFinished := true }
        else { pend3 with currentLap := pend3.currentLap + 1 }
      else pend2
  else pend

/-- Function `checkCheckpointCollisions` of the drift engine, for the vehicle at
`(px, py)` with elapsed race time `elapsed`, starting from the
frame-start snapshot `snap`. -/
def checkCheckpointCollisions (track : DriftTrack) (px py elapsed : ℚ)
    (snap : LapState) : LapState :=
  (track.checkpoints.enum).foldl (cpStep track px py elapsed snap) snap

/-- A one-checkpoint, one-lap track: checkpoint centred at `(400, 300)`,
capture diameter 100, perfect diameter 20. -/
def oneCpTrack : DriftTrack :=
  { width := 800, height := 600, laps := 1
    checkpoints := [{ x := 400, y := 300, width := 100, perfectWindow := 20 }] }

/-- The lap state at the start of a fresh lap. -/
def freshLapState : LapState := ⟨∅, ∅, 1, [], false⟩

/-- C7 (code bug, failing input): the vehicle captures the only checkpoint
dead-centre — within the perfect window, as the first conjunct certifies —
so every checkpoint of the lap is captured perfectly, yet the recorded
`LapTime` has `isPerfect = false`: `completeLap` computes the flag from
the stale pre-frame `perfectCheckpoints` closure, which can never contain
the lap-completing checkpoint.  (The passed/perfect sets are reset for the
next lap as claimed.) -/
theorem perfect_lap_flag_stale_closure :
    sqrtLtQ (((400 : ℚ) - 400) * ((400 : ℚ) - 400) +
        ((300 : ℚ) - 300) * ((300 : ℚ) - 300)) (20 / 2) = true ∧
    checkCheckpointCollisions oneCpTrack 400 300 30 freshLapState =
      ⟨∅, ∅, 1, [⟨1, 30, false⟩], true⟩ := by
  constructor
  · norm_num [sqrtLtQ]
  · unfold checkCheckpointCollisions
    rw [show oneCpTrack.checkpoints.enum = [(0, ⟨400, 300, 100, 20⟩)] from rfl]
    rw [List.foldl_cons, List.foldl_nil]
    unfold cpStep
    norm_num [sqrtLtQ, oneCpTrack, freshLapState]

end Drift
